import Mathlib

deriving instance DecidableEq for Except

/-!
# Verification of the TM1637 display driver (tm1637-rpi5-gpiod)

Shallow embedding of `src/tm1637/tm1637.py`.  The driver bit-bangs a
two-wire (clock/data) protocol; we model it at two levels:

* **event level** (`Ev`): every call to `_set_clk` / `_set_dio` and every
  `sleep(TM1637_DELAY)` becomes one event in a trace, so the exact order of
  line transitions is visible;
* **transaction level** (`Op`): every call to `TM1637.write` made by the
  higher-level formatting methods (`show`, `numbers`, `temperature`,
  `scroll`) becomes one `Op.writeTx segments pos`, and every inter-frame
  `sleep(delay / 1000.0)` becomes one `Op.sleep`.

Python exceptions (`ValueError`) are modelled with `Except TMError`.  Every
`raise` in the modelled code happens before any line transition or state
mutation of the operation that raises, so an `Except.error` result
faithfully means "no bus activity, no state change".  The GPIO chip
discovery and line-request code (`find_gpiochip_for_line`,
`_init_backend_v1/v2`, the `gpiod` plumbing inside `_set_clk`/`_set_dio`)
is platform glue outside the protocol logic and is abstracted into the
event trace itself.
-/

namespace TM1637

/-! ## Constants, from the top of tm1637.py -/

def TM1637_CMD1 : Nat := 0x40
def TM1637_CMD2 : Nat := 0xC0
def TM1637_CMD3 : Nat := 0x80
def TM1637_DSP_ON : Nat := 0x08
def TM1637_MSB : Nat := 0x80

/-- The `_SEGMENTS` bytearray: 39 glyph bytes. -/
def SEGMENTS : List Nat :=
  [0x3F, 0x06, 0x5B, 0x4F, 0x66, 0x6D, 0x7D, 0x07, 0x7F, 0x6F, 0x77, 0x7C,
   0x39, 0x5E, 0x79, 0x71, 0x3D, 0x76, 0x06, 0x1E, 0x76, 0x38, 0x55, 0x54,
   0x3F, 0x73, 0x67, 0x50, 0x6D, 0x78, 0x3E, 0x1C, 0x2A, 0x76, 0x6E, 0x5B,
   0x00, 0x40, 0x63]

/-- The `ValueError`s raised by the driver. -/
inductive TMError where
  | brightnessOutOfRange
  | positionOutOfRange
  | charOutOfRange (code : Nat)
deriving DecidableEq, Repr

/-! ## Event-level model of the bus protocol -/

/-- One elementary action of the bit-banged bus: a clock-line write
(`_set_clk`), a data-line write (`_set_dio`), or a `sleep(TM1637_DELAY)`. -/
inductive Ev where
  | clk (v : Bool)
  | dio (v : Bool)
  | delay
deriving DecidableEq, Repr

/-- `TM1637._start`: clk high, dio high, dio low, clk low. -/
def start : List Ev := [.clk true, .dio true, .dio false, .clk false]

/-- `TM1637._stop`: clk low, dio low, clk high, dio high. -/
def stop : List Ev := [.clk false, .dio false, .clk true, .dio true]

/-- `TM1637._write_byte`: for i in range(8): dio := (b >> i) & 1, sleep,
clk high, sleep, clk low, sleep; then the extra acknowledgement-slot pulse:
clk low, sleep, clk high, sleep, clk low. -/
def write_byte (b : Nat) : List Ev :=
  ((List.range 8).flatMap fun i =>
    [.dio (((b >>> i) &&& 1) == 1), .delay, .clk true, .delay, .clk false, .delay])
  ++ [.clk false, .delay, .clk true, .delay, .clk false]

/-- `TM1637._write_data_cmd`: start, write byte CMD1, stop. -/
def write_data_cmd : List Ev := start ++ write_byte TM1637_CMD1 ++ stop

/-- `TM1637._write_dsp_ctrl`: start, write byte CMD3 | DSP_ON | brightness,
stop. -/
def write_dsp_ctrl (brightness : Nat) : List Ev :=
  start ++ write_byte (TM1637_CMD3 ||| TM1637_DSP_ON ||| brightness) ++ stop

/-- `TM1637.write(segments, pos)` at the event level.  The position check
(`if not 0 <= pos <= 3: raise ValueError`) happens before any bus activity,
so the error case carries no events. -/
def write (brightness : Nat) (segments : List Nat) (pos : Int) :
    Except TMError (List Ev) :=
  if ¬ (0 ≤ pos ∧ pos ≤ 3) then .error .positionOutOfRange
  else .ok (write_data_cmd
    ++ start ++ write_byte (TM1637_CMD2 ||| pos.toNat)
    ++ segments.flatMap write_byte
    ++ stop
    ++ write_dsp_ctrl brightness)

/-- `TM1637.brightness()` with `val is None`: returns the stored
`_brightness`. -/
def brightnessGet (cur : Nat) : Nat := cur

/-- `TM1637.brightness(val)` with an argument: validate `0 <= val <= 7`
(raising before any state change or bus activity), store it, then issue
`_write_data_cmd()` and `_write_dsp_ctrl()`.  Returns the new stored
brightness together with the emitted events. -/
def brightnessSet (_cur : Nat) (val : Int) : Except TMError (Nat × List Ev) :=
  if ¬ (0 ≤ val ∧ val ≤ 7) then .error .brightnessOutOfRange
  else .ok (val.toNat, write_data_cmd ++ write_dsp_ctrl val.toNat)

/-- The brightness validation in `TM1637.__init__`: `if not 0 <= brightness
<= 7: raise ValueError`, before any GPIO resource is touched.  Returns the
initially stored brightness.  (The GPIO chip/line acquisition that follows
the check is platform glue and is not modelled.) -/
def tm1637_init (brightness : Int) : Except TMError Nat :=
  if ¬ (0 ≤ brightness ∧ brightness ≤ 7) then .error .brightnessOutOfRange
  else .ok brightness.toNat

/-! ## Line-state semantics of event traces -/

/-- The electrical state of the two bus lines. -/
structure Lines where
  clk : Bool
  dio : Bool
deriving DecidableEq, Repr

/-- Effect of one event on the line state. -/
def applyEv (s : Lines) : Ev → Lines
  | .clk v => { s with clk := v }
  | .dio v => { s with dio := v }
  | .delay => s

/-- Run a trace of events from a starting line state. -/
def runEvs (s : Lines) (evs : List Ev) : Lines := evs.foldl applyEv s

/-! ## Glyph encoding -/

/-- `TM1637.encode_digit(digit)`: `_SEGMENTS[digit & 0x0F]`.  For a Python
int (negative included) `digit & 0x0F` is the unique residue of `digit`
modulo 16 in `[0, 15]`, which is `Int.emod` by 16. -/
def encode_digit (digit : Int) : Nat :=
  SEGMENTS.getD (digit % 16).toNat 0

/-- `TM1637.encode_char(char)`: ranges checked in the source's order on
`o = ord(char)`, here written `c.toNat`. -/
def encode_char (c : Char) : Except TMError Nat :=
  if c.toNat == 32 then .ok (SEGMENTS.getD 36 0)
  else if c.toNat == 42 then .ok (SEGMENTS.getD 38 0)
  else if c.toNat == 45 then .ok (SEGMENTS.getD 37 0)
  else if 65 ≤ c.toNat ∧ c.toNat ≤ 90 then .ok (SEGMENTS.getD (c.toNat - 55) 0)
  else if 97 ≤ c.toNat ∧ c.toNat ≤ 122 then .ok (SEGMENTS.getD (c.toNat - 87) 0)
  else if 48 ≤ c.toNat ∧ c.toNat ≤ 57 then .ok (SEGMENTS.getD (c.toNat - 48) 0)
  else .error (.charOutOfRange c.toNat)

/-- The loop body of `TM1637.encode_string`: encode each character in index
order, propagating the first failure (the partially filled bytearray of the
source is discarded when `encode_char` raises). -/
def encode_list : List Char → Except TMError (List Nat)
  | [] => .ok []
  | c :: cs => do
    let b ← encode_char c
    let rest ← encode_list cs
    pure (b :: rest)

/-- `TM1637.encode_string(string)`. -/
def encode_string (s : String) : Except TMError (List Nat) :=
  encode_list s.toList

/-! ## Transaction-level model of the formatted operations

Each `self.write(segments, pos)` call performed by a formatting method
becomes one `Op.writeTx`, and each `sleep(delay / 1000.0)` inside `scroll`
becomes one `Op.sleep` (carrying the delay in milliseconds). -/

inductive Op where
  | writeTx (segments : List Nat) (pos : Nat)
  | sleep (ms : Nat)
deriving DecidableEq, Repr

/-- `TM1637.write` viewed at the transaction level: validate the position,
then record one write transaction. -/
def writeOp (segments : List Nat) (pos : Int) : Except TMError (List Op) :=
  if ¬ (0 ≤ pos ∧ pos ≤ 3) then .error .positionOutOfRange
  else .ok [.writeTx segments pos.toNat]

/-- `TM1637.show(string, colon=False)` (`show` is a Lean keyword, hence the
`Op` suffix): encode, OR the colon bit into index 1 when the string has more
than one glyph and `colon` is set, write the first 4 bytes at position 0. -/
def showOp (s : String) (colon : Bool) : Except TMError (List Op) := do
  let segments ← encode_string s
  let segments :=
    if segments.length > 1 ∧ colon then
      segments.set 1 (segments.getD 1 0 ||| TM1637_MSB)
    else segments
  writeOp (segments.take 4) 0

/-- Python `f"{n:02d}"`: pad with zeros to a minimum width of 2, counting
the sign; so 0..9 → "0d", -9..-1 → "-d", and anything already 2 characters
or wider is unchanged. -/
def format02d (n : Int) : String :=
  if n < 0 then "-" ++ toString (-n)
  else if n < 10 then "0" ++ toString n
  else toString n

/-- Python `"{0: >2d}".format(n)`: right-align in a 2-character field,
space-padded. -/
def formatRight2 (n : Int) : String :=
  let s := toString n
  if s.length < 2 then " " ++ s else s

/-- `TM1637.numbers(num1, num2, colon=True)`. -/
def numbers (num1 num2 : Int) (colon : Bool) : Except TMError (List Op) := do
  let n1 : Int := max (-9) (min num1 99)
  let n2 : Int := max (-9) (min num2 99)
  let segments ← encode_string (format02d n1 ++ format02d n2)
  let segments :=
    if colon then segments.set 1 (segments.getD 1 0 ||| TM1637_MSB)
    else segments
  writeOp segments 0

/-- `TM1637.temperature(num)`.  Note: in this source the degree+C suffix
write at position 2 sits inside the `else` branch, so it is only issued for
`-9 <= num <= 99`. -/
def temperature (num : Int) : Except TMError (List Op) :=
  if num < -9 then showOp "lo" false
  else if num > 99 then showOp "hi" false
  else do
    let segs ← encode_string (formatRight2 num)
    let w1 ← writeOp segs 0
    let w2 ← writeOp [SEGMENTS.getD 38 0, SEGMENTS.getD 12 0] 2
    pure (w1 ++ w2)

/-- Python list slice assignment `l[start:stop] = xs` when `stop <= start`:
the replaced slice is empty, so `xs` is inserted at index `start`.  Used to
model `data = [0] * 8; data[4:0] = list(segments)` in `scroll`, which yields
`[0,0,0,0] ++ segments ++ [0,0,0,0]`. -/
def insertAt (l : List Nat) (i : Nat) (xs : List Nat) : List Nat :=
  l.take i ++ xs ++ l.drop i

/-- The loop of `TM1637.scroll`: for each index `i`, write the Python slice
`data[i : i + 4]` at position 0 and sleep `delay` milliseconds. -/
def scrollLoop (data : List Nat) (delay : Nat) :
    List Nat → Except TMError (List Op)
  | [] => .ok []
  | i :: rest => do
    let w ← writeOp ((data.drop i).take 4) 0
    let restOps ← scrollLoop data delay rest
    pure (w ++ [Op.sleep delay] ++ restOps)

/-- `TM1637.scroll(string, delay=250)`. -/
def scroll (s : String) (delay : Nat) : Except TMError (List Op) := do
  let segments ← encode_string s
  let data := insertAt (List.replicate 8 0) 4 segments
  scrollLoop data delay (List.range (segments.length + 5))

/-! ## Spec-side definitions (for refinement statements)

These follow the words of the specification rather than the source, and are
compared against the source-derived definitions in the theorems below. -/

/-- Follows the spec's words for `numbers`: "clamps each of n1, n2 to
[-9, 99]". -/
def clamp9to99 (n : Int) : Int := max (-9) (min n 99)

/-- Follows the spec's words: a value in [-9, 99] rendered with `%02d`
semantics as two glyphs — "negative single digits rendered with a leading
`-` replacing the tens digit", otherwise a zero-padded tens digit and a
units digit (digit `d` encodes to glyph index `d`, `-` to glyph
index 37). -/
def twoDigitGlyphs (v : Int) : List Nat :=
  if v < 0 then [SEGMENTS.getD 37 0, SEGMENTS.getD (-v).toNat 0]
  else [SEGMENTS.getD (v / 10).toNat 0, SEGMENTS.getD (v % 10).toNat 0]

/-- Follows the spec's words for `numbers`: concatenate the two 2-glyph
renderings and optionally OR the colon bit into byte index 1. -/
def numbersSpecBytes (num1 num2 : Int) (colon : Bool) : List Nat :=
  let b := twoDigitGlyphs (clamp9to99 num1) ++ twoDigitGlyphs (clamp9to99 num2)
  if colon then b.set 1 (b.getD 1 0 ||| TM1637_MSB) else b

/-! ## Helper lemmas -/

theorem runEvs_append (s : Lines) (a b : List Ev) :
    runEvs s (a ++ b) = runEvs (runEvs s a) b := by
  simp [runEvs, List.foldl_append]

theorem runEvs_stop (s : Lines) : runEvs s stop = ⟨true, true⟩ := by
  cases s; rfl

theorem bit_of_byte (b i : Nat) : (((b >>> i) &&& 1) == 1) = b.testBit i := by
  rw [Nat.testBit_to_div_mod, Nat.and_one_is_mod, Nat.shiftRight_eq_div_pow]
  rcases Nat.mod_two_eq_zero_or_one (b / 2 ^ i) with h | h <;> simp [h]

theorem char_eq_iff_toNat {c d : Char} : c = d ↔ c.toNat = d.toNat := by
  rw [Char.ext_iff]
  constructor
  · intro h; rw [show c.toNat = c.val.toNat from rfl, h]; rfl
  · intro h; exact UInt32.ext h

/-! ## Claims -/

/-- Claim C2: `_write_byte(b)` emits the 8 bits of `b` least-significant-bit
first; for each bit i it sets the data line to bit i, waits one delay unit,
raises the clock, waits, lowers the clock, waits; after the 8 bits it
performs one extra clock pulse (lower, wait, raise, wait, lower) during
which the data line is never driven. -/
theorem write_byte_bits (b : Nat) :
    write_byte b =
      ((List.range 8).flatMap fun i =>
        [Ev.dio (b.testBit i), .delay, .clk true, .delay, .clk false, .delay])
      ++ [Ev.clk false, .delay, .clk true, .delay, .clk false] := by
  have h : (fun i => [Ev.dio (((b >>> i) &&& 1) == 1), Ev.delay, Ev.clk true,
        Ev.delay, Ev.clk false, Ev.delay])
      = (fun i => [Ev.dio (b.testBit i), Ev.delay, Ev.clk true,
        Ev.delay, Ev.clk false, Ev.delay]) := by
    funext i; rw [bit_of_byte b i]
  rw [write_byte, h]

/-- Claim C1: for pos in [0,3], `write(segments, pos)` performs exactly the
data-command phase (start, byte 0x40, stop), then the address+payload phase
(start, byte 0xC0|pos, the segment bytes in order, stop), then the
display-control phase (start, byte 0x80|0x08|brightness, stop), in that
order; for pos outside [0,3] it raises before any bus activity (the error
result carries no events). -/
theorem write_phases (br : Nat) (segments : List Nat) (pos : Int) :
    (0 ≤ pos ∧ pos ≤ 3 →
      write br segments pos = .ok (
        (start ++ write_byte 0x40 ++ stop)
        ++ (start ++ write_byte (0xC0 ||| pos.toNat)
            ++ segments.flatMap write_byte ++ stop)
        ++ (start ++ write_byte (0x80 ||| 0x08 ||| br) ++ stop)))
    ∧ (¬ (0 ≤ pos ∧ pos ≤ 3) →
      write br segments pos = .error TMError.positionOutOfRange) := by
  constructor
  · intro h
    rw [write, if_neg (not_not_intro h), write_data_cmd, write_dsp_ctrl]
    simp [TM1637_CMD1, TM1637_CMD2, TM1637_CMD3, TM1637_DSP_ON,
      List.append_assoc]
  · intro h
    rw [write, if_pos h]

/-- Witness for C1 at pos = 2 (in range) and pos = 5 (out of range). -/
theorem write_phases_witness :
    write 7 [1, 2] 2 = .ok (
      (start ++ write_byte 0x40 ++ stop)
      ++ (start ++ write_byte (0xC0 ||| (2 : Int).toNat)
          ++ [1, 2].flatMap write_byte ++ stop)
      ++ (start ++ write_byte (0x80 ||| 0x08 ||| 7) ++ stop))
    ∧ write 7 [1, 2] 5 = .error TMError.positionOutOfRange :=
  ⟨(write_phases 7 [1, 2] 2).1 (by decide),
   (write_phases 7 [1, 2] 5).2 (by decide)⟩

/-- Claim C9 counterexample: the claim says `stop()` leaves both lines low,
but running the `_stop` sequence (from any state, here both-low) leaves the
bus with clk = dio = high, not low. -/
theorem stop_lines_low_cex :
    runEvs ⟨false, false⟩ stop ≠ (⟨false, false⟩ : Lines) := by decide

/-- Claim C9 (amended): at the end of `stop()`, and hence at the end of
every completed `write` transaction, the bus is returned to the idle state
with both lines HIGH (released), not low. -/
theorem stop_leaves_bus_high :
    (∀ s : Lines, runEvs s stop = ⟨true, true⟩)
    ∧ (∀ (s : Lines) (br : Nat) (segs : List Nat) (pos : Int) (evs : List Ev),
        write br segs pos = .ok evs → runEvs s evs = ⟨true, true⟩) := by
  refine ⟨runEvs_stop, ?_⟩
  intro s br segs pos evs h
  rw [write] at h
  split at h
  · exact absurd h (by simp)
  · injection h with h
    subst h
    rw [write_dsp_ctrl]
    simp only [← List.append_assoc]
    rw [runEvs_append]
    exact runEvs_stop _

/-- Witness for C9 (amended), applying the theorem to a concrete completed
write transaction. -/
theorem stop_leaves_bus_high_witness :
    runEvs ⟨false, false⟩
      (write_data_cmd ++ start ++ write_byte (TM1637_CMD2 ||| (0 : Int).toNat)
        ++ ([] : List Nat).flatMap write_byte ++ stop ++ write_dsp_ctrl 7)
      = (⟨true, true⟩ : Lines) :=
  stop_leaves_bus_high.2 ⟨false, false⟩ 7 [] 0 _ (by rw [write, if_neg (by decide)])

/-- Claim C10: `encode_digit(d)` never raises: it masks its argument to the
low 4 bits (`d & 0x0F` = the residue of `d` mod 16), an index always in
[0, 16), and returns the corresponding entry of the 16-entry hexadecimal
glyph prefix of the table (digits 0-9 then letters A-F). -/
theorem encode_digit_masks (d : Int) :
    (d % 16).toNat < 16 ∧
    encode_digit d =
      [0x3F, 0x06, 0x5B, 0x4F, 0x66, 0x6D, 0x7D, 0x07,
       0x7F, 0x6F, 0x77, 0x7C, 0x39, 0x5E, 0x79, 0x71].getD (d % 16).toNat 0 := by
  have h0 : 0 ≤ d % 16 := Int.emod_nonneg d (by norm_num)
  have h1 : d % 16 < 16 := Int.emod_lt_of_pos d (by norm_num)
  have hn : (d % 16).toNat < 16 := by omega
  refine ⟨hn, ?_⟩
  rw [encode_digit]
  generalize (d % 16).toNat = n at hn ⊢
  interval_cases n <;> rfl

/-- Claim C7: `encode_char` maps space to table index 36, `*` to 38, `-` to
37, `A`-`Z` to `ord(c) - 55`, `a`-`z` to `ord(c) - 87`, `0`-`9` to
`ord(c) - 48`, checked in that precedence order, and raises the
character-out-of-range error on every other character; every character of
the supported alphabet therefore encodes successfully. -/
theorem encode_char_ranges (c : Char) :
    encode_char c =
      (if c = ' ' then .ok (SEGMENTS.getD 36 0)
       else if c = '*' then .ok (SEGMENTS.getD 38 0)
       else if c = '-' then .ok (SEGMENTS.getD 37 0)
       else if 'A' ≤ c ∧ c ≤ 'Z' then .ok (SEGMENTS.getD (c.toNat - 55) 0)
       else if 'a' ≤ c ∧ c ≤ 'z' then .ok (SEGMENTS.getD (c.toNat - 87) 0)
       else if '0' ≤ c ∧ c ≤ '9' then .ok (SEGMENTS.getD (c.toNat - 48) 0)
       else .error (TMError.charOutOfRange c.toNat))
    ∧ ∀ c2 ∈ "0123456789abcdefghijklmnopqrstuvwxyzABCDEFGHIJKLMNOPQRSTUVWXYZ -*".toList,
        ∃ b, encode_char c2 = .ok b := by
  constructor
  · have hsp : (c = ' ') = (c.toNat = 32) := propext char_eq_iff_toNat
    have hst : (c = '*') = (c.toNat = 42) := propext char_eq_iff_toNat
    have hmi : (c = '-') = (c.toNat = 45) := propext char_eq_iff_toNat
    have hA : ('A' ≤ c ∧ c ≤ 'Z') = (65 ≤ c.toNat ∧ c.toNat ≤ 90) := rfl
    have ha : ('a' ≤ c ∧ c ≤ 'z') = (97 ≤ c.toNat ∧ c.toNat ≤ 122) := rfl
    have h0 : ('0' ≤ c ∧ c ≤ '9') = (48 ≤ c.toNat ∧ c.toNat ≤ 57) := rfl
    rw [encode_char]
    simp only [hsp, hst, hmi, hA, ha, h0, beq_iff_eq]
  · intro c2 hc2
    have hall : ("0123456789abcdefghijklmnopqrstuvwxyzABCDEFGHIJKLMNOPQRSTUVWXYZ -*".toList).all
        (fun x => (encode_char x).isOk) = true := by decide
    have := List.all_eq_true.mp hall c2 hc2
    cases hok : encode_char c2 with
    | ok b => exact ⟨b, rfl⟩
    | error e => rw [hok] at this; exact absurd this (by simp [Except.isOk, Except.toBool])

/-- Witness for C7, discharging the alphabet-membership hypothesis at a
concrete character. -/
theorem encode_char_ranges_witness : ∃ b, encode_char 'z' = .ok b :=
  (encode_char_ranges 'z').2 'z' (by decide)

/-- Claim C8 helper: the `encode_string` loop succeeds exactly elementwise,
in index order. -/
theorem encode_list_ok_spec : ∀ (l : List Char) (res : List Nat),
    encode_list l = .ok res →
    res.length = l.length ∧
    ∀ i (hi : i < res.length) (hl : i < l.length),
      encode_char (l.get ⟨i, hl⟩) = .ok (res.get ⟨i, hi⟩) := by
  intro l
  induction l with
  | nil =>
    intro res h
    rw [encode_list] at h
    injection h with h
    subst h
    exact ⟨rfl, fun i hi hl => absurd hi (by simp)⟩
  | cons c cs ih =>
    intro res h
    rw [encode_list] at h
    cases hc : encode_char c with
    | error e =>
      rw [hc] at h
      exact absurd h (by simp [Bind.bind, Except.bind])
    | ok b =>
      rw [hc] at h
      cases hr : encode_list cs with
      | error e =>
        rw [hr] at h
        exact absurd h (by simp [Bind.bind, Except.bind, Functor.map, Except.map])
      | ok rest =>
        rw [hr] at h
        simp only [Bind.bind, Except.bind, Functor.map, Except.map, pure] at h
        injection h with h
        subst h
        obtain ⟨hlen, helt⟩ := ih rest hr
        refine ⟨by simp [hlen], ?_⟩
        intro i hi hl
        cases i with
        | zero => simpa using hc
        | succ j =>
          simp only [List.get_cons_succ]
          exact helt j (by simpa using hi) (by simpa using hl)

/-- Claim C8 helper: an invalid character anywhere makes the `encode_string`
loop fail (no partial sequence is produced). -/
theorem encode_list_error_spec : ∀ (l : List Char),
    (∃ c ∈ l, ∃ e, encode_char c = .error e) →
    ∃ e2, encode_list l = .error e2 := by
  intro l
  induction l with
  | nil => rintro ⟨c, hc, -⟩; exact absurd hc (by simp)
  | cons c cs ih =>
    rintro ⟨c2, hc2, e, he⟩
    rw [encode_list]
    cases hc : encode_char c with
    | error e3 => exact ⟨e3, by simp [hc, Bind.bind, Except.bind]⟩
    | ok b =>
      rcases List.mem_cons.mp hc2 with rfl | hmem
      · rw [hc] at he; exact absurd he (by simp)
      · obtain ⟨e4, he4⟩ := ih ⟨c2, hmem, e, he⟩
        exact ⟨e4, by simp [hc, he4, Bind.bind, Except.bind, Functor.map, Except.map]⟩

/-- Claim C8: for a string of valid characters, `encode_string` returns a
same-length sequence whose i-th byte is `encode_char` of the i-th character;
if any character is invalid it fails without returning any sequence. -/
theorem encode_string_elementwise (s : String) :
    (∀ res, encode_string s = .ok res →
      res.length = s.toList.length ∧
      ∀ i (hi : i < res.length) (hl : i < s.toList.length),
        encode_char (s.toList.get ⟨i, hl⟩) = .ok (res.get ⟨i, hi⟩))
    ∧ ((∃ c ∈ s.toList, ∃ e, encode_char c = .error e) →
       ∃ e2, encode_string s = .error e2) :=
  ⟨fun res h => encode_list_ok_spec s.toList res h,
   fun h => encode_list_error_spec s.toList h⟩

/-- Witness for C8: "AB" encodes to the two glyph bytes [0x77, 0x7C]
(length 2 = length of "AB"), and "A!" (an invalid character) fails. -/
theorem encode_string_elementwise_witness :
    ([119, 124] : List Nat).length = "AB".toList.length
    ∧ ∃ e2, encode_string "A!" = .error e2 :=
  ⟨((encode_string_elementwise "AB").1 [119, 124] (by rfl)).1,
   (encode_string_elementwise "A!").2 ⟨'!', by decide, .charOutOfRange 33, by rfl⟩⟩

/-- Claim C6: setting a brightness b in [0,7] stores b, so the getter then
returns b; a brightness outside [0,7] is rejected by the setter (before any
bus activity or state change — the raise precedes the assignment and the
command writes) and by the constructor alike. -/
theorem brightness_roundtrip (cur : Nat) (b : Int) :
    (0 ≤ b ∧ b ≤ 7 →
      ∃ evs, brightnessSet cur b = .ok (b.toNat, evs) ∧
        (brightnessGet b.toNat : Int) = b)
    ∧ (¬ (0 ≤ b ∧ b ≤ 7) →
        brightnessSet cur b = .error TMError.brightnessOutOfRange ∧
        tm1637_init b = .error TMError.brightnessOutOfRange) := by
  constructor
  · intro h
    refine ⟨_, by rw [brightnessSet, if_neg (not_not_intro h)], ?_⟩
    rw [brightnessGet]
    exact Int.toNat_of_nonneg h.1
  · intro h
    exact ⟨by rw [brightnessSet, if_pos h], by rw [tm1637_init, if_pos h]⟩

/-- Witness for C6 at b = 5 (in range) and b = 9 (out of range). -/
theorem brightness_roundtrip_witness :
    (∃ evs, brightnessSet 3 5 = .ok ((5 : Int).toNat, evs) ∧
      (brightnessGet (5 : Int).toNat : Int) = 5)
    ∧ brightnessSet 3 9 = .error TMError.brightnessOutOfRange
    ∧ tm1637_init 9 = .error TMError.brightnessOutOfRange :=
  ⟨(brightness_roundtrip 3 5).1 (by decide),
   ((brightness_roundtrip 3 9).2 (by decide)).1,
   ((brightness_roundtrip 3 9).2 (by decide)).2⟩

/-- Claim C3 counterexample: `temperature(-15)` performs exactly ONE write
transaction (the "lo" glyphs 0x38, 0x3F at position 0); it does NOT also
write the degree+C suffix (glyphs 0x63, 0x39) at position 2, because in
this source the suffix write sits inside the in-range `else` branch. -/
theorem temperature_lo_cex :
    temperature (-15) = .ok [Op.writeTx [0x38, 0x3F] 0]
    ∧ temperature (-15) ≠ .ok [Op.writeTx [0x38, 0x3F] 0,
                               Op.writeTx [0x63, 0x39] 2] := by
  constructor
  · rfl
  · decide

/-- Claim C3 (amended): for every n < -9, `temperature(n)` shows the literal
string "lo" as a single write transaction at position 0 and does not write
the degree+C suffix. -/
theorem temperature_lo (n : Int) (h : n < -9) :
    temperature n = .ok [Op.writeTx [0x38, 0x3F] 0] := by
  rw [temperature, if_pos h]
  rfl

/-- Witness for C3 (amended) at n = -15. -/
theorem temperature_lo_witness :
    temperature (-15) = .ok [Op.writeTx [0x38, 0x3F] 0] :=
  temperature_lo (-15) (by decide)

/-- Claim C4 helper: the scroll loop writes the 4-byte slice of the buffer
at each index, at position 0, with a sleep after each write. -/
theorem scrollLoop_ok (data : List Nat) (d : Nat) (idxs : List Nat) :
    scrollLoop data d idxs = .ok (idxs.flatMap fun i =>
      [Op.writeTx ((data.drop i).take 4) 0, Op.sleep d]) := by
  induction idxs with
  | nil => rfl
  | cons i rest ih =>
    simp only [scrollLoop]
    rw [writeOp, if_neg (by decide), ih]
    simp [Bind.bind, Except.bind, Functor.map, Except.map, pure, Except.pure]

/-- Claim C4 counterexample: for s = "AB" the claim's buffer
`[0,0,0,0, glyphA, glyphB]` (length 4+len(s) = 6) does not produce the
write payloads: the actual buffer also has 4 TRAILING zero bytes (Python
`data[4:0] = segments` inserts into `[0]*8`), so the last windows are
zero-padded 4-byte slices rather than shrinking slices of a 6-byte
buffer. -/
theorem scroll_buffer_cex :
    scroll "AB" 10 ≠ .ok ((List.range 7).flatMap fun i =>
      [Op.writeTx ((([0, 0, 0, 0, 0x77, 0x7C] : List Nat).drop i).take 4) 0,
       Op.sleep 10])
    ∧ scroll "AB" 10 = .ok ((List.range 7).flatMap fun i =>
      [Op.writeTx ((([0, 0, 0, 0, 0x77, 0x7C, 0, 0, 0, 0] : List Nat).drop i).take 4) 0,
       Op.sleep 10]) := by
  constructor
  · decide
  · decide

/-- Claim C4 (amended): `scroll(s, d)` builds the window buffer of 4 leading
zero bytes, the encoded segment bytes, and 4 trailing zero bytes (length
8+len(s)), and performs exactly len(s)+5 write transactions at position 0,
the i-th writing the 4-wide window of that buffer at offset i (every window
a full 4 bytes), with a sleep of d ms after each write. -/
theorem scroll_windows (s : String) (d : Nat) (segs : List Nat)
    (h : encode_string s = .ok segs) :
    scroll s d = .ok ((List.range (segs.length + 5)).flatMap fun i =>
      [Op.writeTx (((List.replicate 4 0 ++ segs ++ List.replicate 4 0).drop i).take 4) 0,
       Op.sleep d])
    ∧ ∀ i, i < segs.length + 5 →
      (((List.replicate 4 0 ++ segs ++ List.replicate 4 0).drop i).take 4).length = 4 := by
  have hdata : insertAt (List.replicate 8 0) 4 segs
      = List.replicate 4 0 ++ segs ++ List.replicate 4 0 := by
    norm_num [insertAt, List.take_replicate, List.drop_replicate]
  constructor
  · rw [scroll, h]
    simp only [Bind.bind, Except.bind]
    rw [hdata, scrollLoop_ok]
  · intro i hi
    simp only [List.length_take, List.length_drop, List.length_append,
      List.length_replicate]
    omega

/-- Witness for C4 (amended) at s = "AB" (7 windows over the 10-byte
buffer). -/
theorem scroll_windows_witness :
    scroll "AB" 10 = .ok ((List.range (([119, 124] : List Nat).length + 5)).flatMap fun i =>
      [Op.writeTx (((List.replicate 4 0 ++ [119, 124] ++ List.replicate 4 0).drop i).take 4) 0,
       Op.sleep 10]) :=
  (scroll_windows "AB" 10 [119, 124] (by rfl)).1

/-- Claim C5 helper: encoding distributes over string concatenation. -/
theorem encode_list_append (a b : List Char) (ra rb : List Nat)
    (ha : encode_list a = .ok ra) (hb : encode_list b = .ok rb) :
    encode_list (a ++ b) = .ok (ra ++ rb) := by
  induction a generalizing ra with
  | nil =>
    rw [encode_list] at ha
    injection ha with ha
    subst ha
    simpa using hb
  | cons c cs ih =>
    rw [List.cons_append, encode_list]
    rw [encode_list] at ha
    cases hc : encode_char c with
    | error e =>
      rw [hc] at ha
      exact absurd ha (by simp [Bind.bind, Except.bind])
    | ok v =>
      rw [hc] at ha
      cases hr : encode_list cs with
      | error e =>
        rw [hr] at ha
        exact absurd ha (by simp [Bind.bind, Except.bind, Functor.map, Except.map])
      | ok rest =>
        rw [hr] at ha
        simp only [Bind.bind, Except.bind, Functor.map, Except.map, pure] at ha
        injection ha with ha
        subst ha
        rw [ih rest hr]
        simp [Bind.bind, Except.bind, Functor.map, Except.map, pure, Except.pure]

/-- Claim C5 helper: `encode_string` distributes over `++`. -/
theorem encode_string_append (s1 s2 : String) (r1 r2 : List Nat)
    (h1 : encode_string s1 = .ok r1) (h2 : encode_string s2 = .ok r2) :
    encode_string (s1 ++ s2) = .ok (r1 ++ r2) := by
  rw [encode_string] at h1 h2 ⊢
  rw [show (s1 ++ s2).toList = s1.toList ++ s2.toList by simp [String.toList]]
  exact encode_list_append _ _ _ _ h1 h2

/-- Claim C5 helper: the clamped value stays in [-9, 99]. -/
theorem clamp9to99_bounds (n : Int) : -9 ≤ clamp9to99 n ∧ clamp9to99 n ≤ 99 := by
  rw [clamp9to99]
  exact ⟨le_max_left _ _, max_le (by norm_num) (min_le_right _ _)⟩

/-- Claim C5 helper: on [-9, 99], Python `%02d` formatting followed by glyph
encoding gives exactly the two `%02d`-semantics glyphs (`-` replacing the
tens digit for negative single digits). -/
theorem encode_format02d (v : Int) (h1 : -9 ≤ v) (h2 : v ≤ 99) :
    encode_string (format02d v) = .ok (twoDigitGlyphs v) := by
  interval_cases v <;> rfl

/-- Claim C5: `numbers(n1, n2, colon)` clamps both arguments to [-9, 99],
renders each with `%02d` semantics, concatenates, encodes, ORs 0x80 into
byte index 1 when colon is set, and issues one 4-byte write at position 0;
in particular `numbers(5, 7, colon=True)` writes
[glyph 0, glyph 5 | 0x80, glyph 0, glyph 7]. -/
theorem numbers_glyphs :
    (∀ (n1 n2 : Int) (colon : Bool),
      numbers n1 n2 colon = .ok [Op.writeTx (numbersSpecBytes n1 n2 colon) 0])
    ∧ numbers 5 7 true = .ok [Op.writeTx [0x3F, 0xED, 0x3F, 0x07] 0] := by
  constructor
  · intro n1 n2 colon
    obtain ⟨hb1, hb1u⟩ := clamp9to99_bounds n1
    obtain ⟨hb2, hb2u⟩ := clamp9to99_bounds n2
    have happ := encode_string_append _ _ _ _
      (encode_format02d (clamp9to99 n1) hb1 hb1u)
      (encode_format02d (clamp9to99 n2) hb2 hb2u)
    rw [numbers,
      show max (-9) (min n1 99) = clamp9to99 n1 from rfl,
      show max (-9) (min n2 99) = clamp9to99 n2 from rfl,
      happ]
    simp only [Bind.bind, Except.bind]
    rw [writeOp, if_neg (by decide)]
    simp only [numbersSpecBytes]
    rfl
  · decide

end TM1637
